import Mathlib

/-!
Shallow embedding of `src/unified_braille_processor.py` (the translation core:
`BRAILLE_MAP`, `translate_to_simplified_braille`, `calculate_contraction_ratio`,
and the per-request pipeline of `run_unified_demo`, lines 100-115).

Character-class conventions: Python's regex `\w` and `str.lower()` /
`str.isupper()` are Unicode-aware; this embedding models them over the ASCII
range (treating every non-ASCII character as a non-word, caseless character).
The two agree on all ASCII text and on Braille-block characters such as the
capitalization indicator, which are the only inputs at issue here.
-/

namespace UnifiedBraille

/-- The dictionary `BRAILLE_MAP` of the source (lines 9-18), as an association
list in the source's entry order. Keys are unique, so first-match lookup agrees
with Python dict lookup. -/
def BRAILLE_MAP : List (String × String) := [
  ("the", "⠮"), ("and", "⠯"), ("for", "⠿"), ("with", "⠾"), ("of", "⠷"),
  ("is", "⠊⠎"), ("to", "⠞⠕"), ("it", "⠊⠞"), ("that", "⠹"), ("was", "⠺⠁⠎"),
  ("will", "⠺⠇"), ("can", "⠉⠁⠝"), ("you", "⠽"),
  ("a", "⠁"), ("b", "⠃"), ("c", "⠉"), ("d", "⠙"), ("e", "⠑"),
  ("f", "⠋"), ("g", "⠛"), ("h", "⠓"), ("i", "⠊"), ("j", "⠚"),
  ("l", "⠇"), ("m", "⠍"), ("n", "⠝"), ("o", "⠕"), ("p", "⠏"), ("q", "⠟"),
  ("r", "⠗"), ("s", "⠎"), ("t", "⠞"),
  ("u", "⠥"), ("v", "⠧"), ("w", "⠺"), ("x", "⠭"), ("y", "⠽"), ("z", "⠵"),
  (" ", "⠀"), (",", "⠄"), (".", "⠲"), ("?", "⠹"), ("!", "⠖")]

/-- Python dict lookup `BRAILLE_MAP[k]` / `BRAILLE_MAP.get(k)`:
`some` of the mapped cells when `k` is a key, `none` otherwise. -/
def lookup (k : String) : Option String :=
  (BRAILLE_MAP.find? fun p => p.1 == k).map Prod.snd

/-- Python regex class `\w` (ASCII fragment): letters, digits, underscore. -/
def isWordChar (c : Char) : Bool := c.isAlphanum || c = '_'

/-- The regex character class of the run alternative in the token pattern
of source line 22: a word character or an apostrophe. -/
def isRunChar (c : Char) : Bool := isWordChar c || c = Char.ofNat 39

/-- The single-character alternative of the token pattern: one of `. , ! ?`. -/
def isPunctTok (c : Char) : Bool := c = '.' || c = ',' || c = '!' || c = '?'

/-- Left-to-right scan of the token regex at source line 22:
greedily accumulate a maximal run of run-class characters (the reversed
pending run is `acc`); a non-run character flushes the pending run, is
emitted as its own token when it is one of the four punctuation characters,
and is skipped otherwise. This is exactly how `re.findall` with the
alternation of a greedy run and a single punctuation character scans. -/
def tokenizeGo : List Char → List Char → List (List Char)
  | [], acc => if acc = [] then [] else [acc.reverse]
  | c :: rest, acc =>
    if isRunChar c then
      tokenizeGo rest (c :: acc)
    else
      (if acc = [] then [] else [acc.reverse]) ++
        ((if isPunctTok c then [[c]] else []) ++ tokenizeGo rest [])

/-- Python `str.lower()` (ASCII fragment), applied character by character. -/
def lowerString (s : String) : String :=
  ⟨s.data.map Char.toLower⟩

/-- The tokenization step of `translate_to_simplified_braille` (line 22):
lower-case, then extract the token stream. -/
def tokenize (text : String) : List String :=
  (tokenizeGo (lowerString text).data []).map fun cs => ⟨cs⟩

/-- Single-character lookup with literal fall-through:
`BRAILLE_MAP.get(char, char)` at source line 28. -/
def translateChar (ch : Char) : String :=
  (lookup (String.singleton ch)).getD (String.singleton ch)

/-- Character-by-character decomposition of a token,
`"".join([BRAILLE_MAP.get(char, char) for char in token])` (line 28). -/
def letterByLetter (token : String) : String :=
  String.join (token.data.map translateChar)

/-- The per-token branch of the translator loop (lines 24-29): a whole-token
table entry when present, character-by-character decomposition otherwise. -/
def translateToken (token : String) : String :=
  match lookup token with
  | some cells => cells
  | none => letterByLetter token

/-- The function `translate_to_simplified_braille` (lines 20-30): tokenize,
translate each token, join with the blank Braille cell U+2800 (line 30). -/
def translate_to_simplified_braille (text : String) : String :=
  String.intercalate "⠀" ((tokenize text).map translateToken)

/-- Count of ASCII alphabetic characters,
`len(re.sub(r'[^a-zA-Z]', '', english_text))` at source line 35. -/
def countLetters (s : String) : Nat :=
  (s.data.filter fun c => c.isAlpha).length

/-- The function `calculate_contraction_ratio` (lines 32-38). Python's float
division is modelled in ℚ; the guard `if english_chars > 0 else 0` is the
source's. Returns `(english_chars, braille_cells, ratio)`. -/
def calculate_contraction_ratio (english_text braille_output : String) :
    Nat × Nat × ℚ :=
  (countLetters english_text, braille_output.length,
    if 0 < countLetters english_text then
      (braille_output.length : ℚ) / (countLetters english_text : ℚ)
    else 0)

/-- The capitalization rule of `run_unified_demo` (lines 104-106): if the text
is non-empty and its first character is upper-case, prepend the capitalization
indicator cell U+2820; otherwise leave the text unchanged. -/
def markCapital (text : String) : String :=
  match text.data with
  | [] => text
  | c :: _ => if c.isUpper then "⠠" ++ text else text

/-- Word-level Levenshtein distance. Used only by the modelled `wer` below. -/
def levenshtein : List String → List String → Nat
  | [], ys => ys.length
  | xs, [] => xs.length
  | x :: xs, y :: ys =>
    if x = y then levenshtein xs ys
    else 1 + min (levenshtein (x :: xs) ys)
            (min (levenshtein xs (y :: ys)) (levenshtein xs ys))
termination_by xs ys => xs.length + ys.length

/-- Whitespace-delimited words of a string (Python `str.split()`). -/
def words (s : String) : List String :=
  (s.split Char.isWhitespace).filter fun w => w ≠ ""

/-- Modelled from the spec: the `wer` function of the external `jiwer` library
(imported at source line 5, not part of this repository): standard
word-error-rate, the word-level edit distance between the reference and the
hypothesis divided by the number of reference words. -/
def wer (reference hypothesis : String) : ℚ :=
  if (words reference).length = 0 then 0
  else (levenshtein (words reference) (words hypothesis) : ℚ) /
    ((words reference).length : ℚ)

/-- Source line 115: `wer(ground_truth.lower(), display_text.lower()) if
ground_truth else "N/A"`. Python truthiness makes both `None` and the empty
string falsy, so both produce the non-numeric sentinel, modelled as `none`. -/
def calculated_wer (ground_truth : Option String) (display_text : String) :
    Option ℚ :=
  match ground_truth with
  | none => none
  | some gt =>
    if gt = "" then none
    else some (wer (lowerString gt) (lowerString display_text))

/-- The structured result of one translation request. -/
structure TranslationResult where
  displayText : String
  brailleOutput : String
  lettersCounted : Nat
  cellsProduced : Nat
  contractionRatio : ℚ
  wordErrorRate : Option ℚ
  deriving Repr, DecidableEq

/-- The per-request pipeline of `run_unified_demo` (lines 100-115):
capitalization rule applied to `text` while `display_text` keeps the original,
translation of the marked text, metrics from the original text, and the
word-error-rate field. -/
def run_pipeline (text : String) (ground_truth : Option String) :
    TranslationResult :=
  let display_text := text
  let marked := markCapital text
  let braille_output := translate_to_simplified_braille marked
  let m := calculate_contraction_ratio display_text braille_output
  { displayText := display_text
    brailleOutput := braille_output
    lettersCounted := m.1
    cellsProduced := m.2.1
    contractionRatio := m.2.2
    wordErrorRate := calculated_wer ground_truth display_text }

/-- Declarative description of the token stream of a character sequence, read
left to right: a character of neither class is dropped, a punctuation
character of the fixed set stands alone as a token, and every non-empty
maximal run of run-class characters is one token (maximality: the remainder
after the run must not begin with another run-class character). This follows
the wording of the tokenization contract, not the scanning code. -/
inductive TokensSpec : List Char → List (List Char) → Prop
  | nil : TokensSpec [] []
  | drop {c : Char} {l : List Char} {t : List (List Char)} :
      isRunChar c = false → isPunctTok c = false →
      TokensSpec l t → TokensSpec (c :: l) t
  | punct {c : Char} {l : List Char} {t : List (List Char)} :
      isRunChar c = false → isPunctTok c = true →
      TokensSpec l t → TokensSpec (c :: l) ([c] :: t)
  | run {r l : List Char} {t : List (List Char)} :
      r ≠ [] → (∀ c ∈ r, isRunChar c = true) →
      (∀ c, l.head? = some c → isRunChar c = false) →
      TokensSpec l t → TokensSpec (r ++ l) (r :: t)

theorem tokenizeGo_spec (cs : List Char) :
    ∀ acc : List Char, (∀ c ∈ acc, isRunChar c = true) →
      TokensSpec (acc.reverse ++ cs) (tokenizeGo cs acc) := by
  induction cs with
  | nil =>
    intro acc hacc
    simp only [tokenizeGo]
    by_cases ha : acc = []
    · subst ha
      simpa using TokensSpec.nil
    · have hr : TokensSpec (acc.reverse ++ []) [acc.reverse] := by
        refine @TokensSpec.run acc.reverse [] [] ?_ ?_ ?_ TokensSpec.nil
        · simpa using ha
        · intro c hc
          exact hacc c (List.mem_reverse.mp hc)
        · intro c hc
          simp at hc
      simpa [ha] using hr
  | cons c rest ih =>
    intro acc hacc
    simp only [tokenizeGo]
    by_cases hc : isRunChar c = true
    · have hacc2 : ∀ x ∈ c :: acc, isRunChar x = true := by
        intro x hx
        rcases List.mem_cons.mp hx with h | h
        · simpa [h] using hc
        · exact hacc x h
      have h := ih (c :: acc) hacc2
      rw [if_pos hc]
      simpa [List.append_assoc] using h
    · have hc2 : isRunChar c = false := by
        simpa using hc
      have h0 := ih [] (by simp)
      have hrest : TokensSpec (c :: rest)
          ((if isPunctTok c then [[c]] else []) ++ tokenizeGo rest []) := by
        by_cases hp : isPunctTok c = true
        · simpa [hp] using TokensSpec.punct hc2 hp h0
        · have hp2 : isPunctTok c = false := by simpa using hp
          simpa [hp2] using TokensSpec.drop hc2 hp2 h0
      rw [if_neg hc]
      by_cases ha : acc = []
      · subst ha
        simpa using hrest
      · have hr : TokensSpec (acc.reverse ++ (c :: rest))
            (acc.reverse :: ((if isPunctTok c then [[c]] else []) ++
              tokenizeGo rest [])) := by
          refine @TokensSpec.run acc.reverse (c :: rest) _ ?_ ?_ ?_ hrest
          · simpa using ha
          · intro x hx
            exact hacc x (List.mem_reverse.mp hx)
          · intro x hx
            simp only [List.head?_cons, Option.some.injEq] at hx
            simpa [hx] using hc2
        simpa [ha] using hr

theorem tokens_spec (text : String) :
    TokensSpec (lowerString text).data ((tokenize text).map String.data) := by
  have h := tokenizeGo_spec (lowerString text).data [] (by simp)
  have hid : (String.data ∘ fun cs : List Char => (⟨cs⟩ : String)) = id := rfl
  simpa [tokenize, List.map_map, hid] using h

theorem tokenizeGo_run : ∀ r l acc : List Char, (∀ c ∈ r, isRunChar c = true) →
    tokenizeGo (r ++ l) acc = tokenizeGo l (r.reverse ++ acc) := by
  intro r
  induction r with
  | nil =>
    intro l acc h
    simp
  | cons x r ih =>
    intro l acc h
    have hx : isRunChar x = true := h x (by simp)
    have h2 : ∀ c ∈ r, isRunChar c = true := fun c hc => h c (by simp [hc])
    simp only [List.cons_append, tokenizeGo, hx, if_true]
    refine (ih l (x :: acc) h2).trans ?_
    simp [List.append_assoc]

theorem tokensSpec_eq {l : List Char} {t : List (List Char)}
    (h : TokensSpec l t) : tokenizeGo l [] = t := by
  induction h with
  | nil => simp [tokenizeGo]
  | drop hc hp htl ih => simp [tokenizeGo, hc, hp, ih]
  | punct hc hp htl ih => simp [tokenizeGo, hc, hp, ih]
  | run hne hall hbound htl ih =>
    rename_i r l t
    rw [tokenizeGo_run r l [] hall, List.append_nil]
    cases l with
    | nil =>
      have ht : t = [] := by simpa [tokenizeGo] using ih.symm
      simp [tokenizeGo, hne, ht]
    | cons c rest =>
      have hc : isRunChar c = false := hbound c rfl
      have ht : t = (if isPunctTok c then [[c]] else []) ++ tokenizeGo rest [] := by
        simpa [tokenizeGo, hc] using ih.symm
      simp [tokenizeGo, hc, hne, ht]

theorem tokensSpec_unique {l : List Char} {t u : List (List Char)}
    (ht : TokensSpec l t) (hu : TokensSpec l u) : t = u :=
  (tokensSpec_eq ht).symm.trans (tokensSpec_eq hu)

theorem string_data_append (s t : String) : (s ++ t).data = s.data ++ t.data := rfl

theorem data_foldl_append (l : List String) :
    ∀ s : String, (l.foldl (fun r a => r ++ a) s).data =
      s.data ++ (l.map String.data).flatten := by
  induction l with
  | nil =>
    intro s
    simp
  | cons a l ih =>
    intro s
    simp only [List.foldl_cons, List.map_cons, List.flatten_cons]
    rw [ih (s ++ a), string_data_append]
    simp

theorem string_join_data (l : List String) :
    (String.join l).data = (l.map String.data).flatten := by
  simpa [String.join] using data_foldl_append l ""

/-- C1: the symbol table holds the space cell, the four punctuation cells and
the thirteen whole-word contractions, and 25 of the 26 lowercase letters — but
the letter "k" has no entry at all (source lines 13-15 list `a`..`j` and then
jump to `l`), so the claimed complete lowercase alphabet is not present. -/
theorem C1_letter_k_missing :
    lookup "k" = none ∧
    ("abcdefghijlmnopqrstuvwxyz".data.all fun c =>
      (lookup (String.singleton c)).isSome) = true ∧
    ([" ", ",", ".", "?", "!", "the", "and", "for", "with", "of", "is", "to",
      "it", "that", "was", "will", "can", "you"].all fun w =>
      (lookup w).isSome) = true := by decide

/-- C2: the capitalization rule does prepend the indicator cell U+2820 to a
leading-uppercase text, but the tokenizer discards that cell (it is neither a
word character nor one of the four punctuation characters), so the Braille
output of the marked text is byte-identical to the output of the unmarked
text: the marking never affects the translated stream. -/
theorem C2_indicator_dropped :
    markCapital "The cat." = "⠠The cat." ∧
    translate_to_simplified_braille (markCapital "The cat.") =
      translate_to_simplified_braille "the cat." ∧
    (run_pipeline "The cat." none).brailleOutput =
      (run_pipeline "the cat." none).brailleOutput := by decide

/-- C3 counterexample: the whole-word key "is" maps to "⠊⠎", which has exactly
the same length (2 cells) as its letter-by-letter expansion, so the mapped
sequence is not strictly shorter than the expansion. -/
theorem C3_counterexample :
    ("is", "⠊⠎") ∈ BRAILLE_MAP ∧ 1 < ("is" : String).length ∧
    ¬ ("⠊⠎" : String).length < (letterByLetter "is").length := by decide

/-- C3 (amended: for every whole-word key of the table, the mapped cell
sequence is at most as long as — never longer than — the letter-by-letter
expansion of the word; it is not always strictly shorter). -/
theorem C3_contractions_no_longer :
    ∀ p ∈ BRAILLE_MAP, 1 < p.1.length →
      p.2.length ≤ (letterByLetter p.1).length := by decide

theorem C3_witness :
    ("the", "⠮") ∈ BRAILLE_MAP ∧ 1 < ("the" : String).length ∧
    ("⠮" : String).length ≤ (letterByLetter "the").length :=
  ⟨by decide, by decide, C3_contractions_no_longer ("the", "⠮") (by decide) (by decide)⟩

/-- C4 counterexample: the tokenizer keeps the underscore inside a token
(Python's word-character class includes it), instead of dropping it as the
claim states — on input "_" the claimed token sequence is empty, the actual
one is ["_"]. -/
theorem C4_counterexample : tokenize "_" = ["_"] ∧ tokenize "_" ≠ [] := by decide

/-- C4 (amended: the runs kept as tokens are maximal runs of word characters —
letters, digits, underscores — and apostrophes): the tokenizer lower-cases the
input and its output is a valid token stream in the declarative sense of
`TokensSpec` (maximal run / standalone punctuation / drop everything else, in
left-to-right order), and the empty string yields the empty sequence. By
`tokensSpec_unique` the stream in that sense is unique, so the output is
exactly the claimed one. -/
theorem C4_tokenizer_spec :
    (∀ text : String,
      TokensSpec (lowerString text).data ((tokenize text).map String.data)) ∧
    tokenize "" = [] :=
  ⟨tokens_spec, by decide⟩

theorem C4_witness :
    TokensSpec (lowerString "a_b.").data ((tokenize "a_b.").map String.data) :=
  C4_tokenizer_spec.1 "a_b."

/-- C5 counterexample: a reference transcript that is present but empty (the
empty string is falsy in Python, source line 115) yields the non-numeric
sentinel, although a reference was supplied — so "numeric iff supplied" fails
at `some ""`. -/
theorem C5_counterexample :
    (some "" : Option String) ≠ none ∧
    (run_pipeline "hello" (some "")).wordErrorRate = none :=
  ⟨by simp, rfl⟩

/-- C5 (amended: the word-error-rate field is numeric if and only if a
non-empty reference transcript was supplied). -/
theorem C5_wer_iff (text : String) (gt : Option String) :
    (run_pipeline text gt).wordErrorRate ≠ none ↔
      ∃ s : String, gt = some s ∧ s ≠ "" := by
  cases gt with
  | none => simp [run_pipeline, calculated_wer]
  | some s =>
    by_cases h : s = ""
    · subst h
      simp [run_pipeline, calculated_wer]
    · simp [run_pipeline, calculated_wer, h]

theorem C5_witness :
    (run_pipeline "hi" (some "ref")).wordErrorRate ≠ none :=
  (C5_wer_iff "hi" (some "ref")).mpr ⟨"ref", rfl, by decide⟩

/-- C6: the contraction ratio is the guarded quotient: it equals
cellsProduced / lettersCounted whenever lettersCounted is positive and is
exactly 0 whenever lettersCounted is 0; the definition is total, so the
computation never fails. -/
theorem C6_ratio_guarded (t b : String) :
    ((calculate_contraction_ratio t b).1 = 0 →
      (calculate_contraction_ratio t b).2.2 = 0) ∧
    (0 < (calculate_contraction_ratio t b).1 →
      (calculate_contraction_ratio t b).2.2 =
        ((calculate_contraction_ratio t b).2.1 : ℚ) /
          ((calculate_contraction_ratio t b).1 : ℚ)) := by
  constructor
  · intro h
    simp only [calculate_contraction_ratio] at h ⊢
    simp [h]
  · intro h
    simp only [calculate_contraction_ratio] at h ⊢
    simp [h]

theorem C6_witness :
    (calculate_contraction_ratio "123!!" "⠁⠃").1 = 0 ∧
    (calculate_contraction_ratio "123!!" "⠁⠃").2.2 = 0 ∧
    0 < (calculate_contraction_ratio "ab" "⠁⠃⠉").1 ∧
    (calculate_contraction_ratio "ab" "⠁⠃⠉").2.2 =
      ((calculate_contraction_ratio "ab" "⠁⠃⠉").2.1 : ℚ) /
        ((calculate_contraction_ratio "ab" "⠁⠃⠉").1 : ℚ) :=
  ⟨by decide, (C6_ratio_guarded "123!!" "⠁⠃").1 (by decide),
    by decide, (C6_ratio_guarded "ab" "⠁⠃⠉").2 (by decide)⟩

/-- C7: whole-word table entries take precedence — a token that is itself a
key translates to its mapped cells, and character-by-character decomposition
is used exactly when the token is not a key; in particular "the" maps to the
single contracted cell, which differs from its three letter cells. -/
theorem C7_whole_word_precedence :
    (∀ t c : String, lookup t = some c → translateToken t = c) ∧
    (∀ t : String, lookup t = none → translateToken t = letterByLetter t) ∧
    translateToken "the" = "⠮" ∧ letterByLetter "the" = "⠞⠓⠑" ∧
    ("⠮" : String) ≠ "⠞⠓⠑" := by
  refine ⟨?_, ?_, by decide, by decide, by decide⟩
  · intro t c h
    simp [translateToken, h]
  · intro t h
    simp [translateToken, h]

theorem C7_witness :
    lookup "and" = some "⠯" ∧ translateToken "and" = "⠯" :=
  ⟨by decide, C7_whole_word_precedence.1 "and" "⠯" (by decide)⟩

/-- C8: end-to-end on "The cat.": the (marked) text tokenizes to
["the","cat","."], the translator emits the "the" contraction, the space
cell, the letter cells of c-a-t, the space cell and the "." cell in order,
lettersCounted is 6 and the contraction ratio is cellsProduced / 6. -/
theorem C8_the_cat :
    tokenize (markCapital "The cat.") = ["the", "cat", "."] ∧
    translateToken "the" = "⠮" ∧ translateToken "cat" = "⠉⠁⠞" ∧
    translateToken "." = "⠲" ∧
    (run_pipeline "The cat." none).brailleOutput =
      "⠮" ++ "⠀" ++ "⠉⠁⠞" ++ "⠀" ++ "⠲" ∧
    (run_pipeline "The cat." none).lettersCounted = 6 ∧
    (run_pipeline "The cat." none).contractionRatio =
      ((run_pipeline "The cat." none).cellsProduced : ℚ) / 6 := by
  refine ⟨by decide, by decide, by decide, by decide, by decide, by decide, ?_⟩
  have h1 : countLetters "The cat." = 6 := by decide
  have h2 : (translate_to_simplified_braille (markCapital "The cat.")).length = 7 := by
    decide
  have h3 : (run_pipeline "The cat." none).cellsProduced = 7 := by decide
  simp only [run_pipeline, calculate_contraction_ratio, h1, h2, h3]
  norm_num

/-- C9: when a token has no whole-word entry, every character of it that has
no single-character entry passes through into the translator output unchanged;
translation is a total function, so it never fails. -/
theorem C9_passthrough (t : String) (ch : Char) (h1 : ch ∈ t.data)
    (h2 : lookup t = none) (h3 : lookup (String.singleton ch) = none) :
    ch ∈ (translateToken t).data := by
  have e : translateToken t = letterByLetter t := by simp [translateToken, h2]
  rw [e, letterByLetter, string_join_data, List.map_map]
  refine List.mem_flatten.mpr ⟨(translateChar ch).data, ?_, ?_⟩
  · exact List.mem_map_of_mem _ h1
  · have hc : translateChar ch = String.singleton ch := by
      simp [translateChar, h3]
    rw [hc]
    simp [String.singleton]

theorem C9_witness :
    lookup "a5b" = none ∧ lookup (String.singleton '5') = none ∧
    '5' ∈ ("a5b" : String).data ∧ '5' ∈ (translateToken "a5b").data :=
  ⟨by decide, by decide, by decide,
    C9_passthrough "a5b" '5' (by decide) (by decide) (by decide)⟩

/-- C10: translation is not injective — the word "that" and the punctuation
mark "?" are distinct inputs whose table entries are the same cell "⠹", so
their Braille outputs are byte-identical. -/
theorem C10_not_injective :
    ("that" : String) ≠ "?" ∧ lookup "that" = lookup "?" ∧
    translate_to_simplified_braille "that" =
      translate_to_simplified_braille "?" ∧
    translate_to_simplified_braille "that" = "⠹" := by decide

end UnifiedBraille
